import Mathlib

/-
Verification of the BrowserAgent task-orchestration subsystem.

This file gives a shallow embedding, in Lean 4, of the parts of
src/taskOrchestrator.js that the specification talks about: the task-plan
derivation, the settled-outcome collection and aggregation of
executeParallelAnalysis, the per-task executor functions, cancellation,
status queries and cleanup.  The JobQueue, ResultReconciliator and
StateTracker modules are required by taskOrchestrator.js but their source
is not part of the repository snapshot; where their behaviour decides a
property they are modelled from the specification, and each such
definition carries a doc comment beginning with the words Modelled from
the spec.

JavaScript numbers are modelled as rationals, JavaScript strings as Lean
strings, and fields that may be absent (undefined) as Option types.  JS
Map objects are modelled as association lists with distinct keys.
-/

namespace BrowserAgent

/-- Truthiness of a possibly-absent JS string: undefined and the empty
string are falsy, every other string is truthy. -/
def jsTruthyStr : Option String → Bool
  | none => false
  | some s => s ≠ ""

/-- The JS expression written with two vertical bars applied to a
possibly-absent string and a string default: the default is used when the
field is undefined or the empty string. -/
def jsOrStr (x : Option String) (d : String) : String :=
  match x with
  | none => d
  | some s => if s = "" then d else s

/-- The JS expression written with two vertical bars applied to a
possibly-absent number and a numeric default: the default is used when the
field is undefined or zero (zero is falsy in JS). -/
def jsOrNum (x : Option ℚ) (d : ℚ) : ℚ :=
  match x with
  | none => d
  | some c => if c = 0 then d else c

/-- Number of non-overlapping occurrences of a pattern in a string, as
computed by matching with a global literal regex in JS. -/
def countSubstr (s pat : String) : ℕ :=
  (s.splitOn pat).length - 1

/-- JS String.includes for a non-empty literal pattern. -/
def strContains (s pat : String) : Bool :=
  1 < (s.splitOn pat).length

/-- Lookup in an association list modelling a JS Map. -/
def lookupA {α : Type} : List (String × α) → String → Option α
  | [], _ => none
  | (k, v) :: rest, key => if k = key then some v else lookupA rest key

/-- Overwrite the value stored under an existing key of a JS Map,
preserving insertion order (Map.set on a present key). -/
def setA {α : Type} : List (String × α) → String → α → List (String × α)
  | [], _, _ => []
  | (k, v) :: rest, key, w => if k = key then (k, w) :: rest else (k, v) :: setA rest key w

/-- Task type tags, from the TaskType enumeration of taskOrchestrator.js. -/
def TaskType.DOM_ANALYSIS : String := "dom_analysis"

def TaskType.VISION_ANALYSIS : String := "vision_analysis"

def TaskType.VISUAL_SEGMENTATION : String := "visual_segmentation"

def TaskType.ELEMENT_CLASSIFICATION : String := "element_classification"

def TaskType.VISUAL_MAPPING : String := "visual_mapping"

def TaskType.STATE_TRACKING : String := "state_tracking"

def TaskType.ANIMATION_DETECTION : String := "animation_detection"

def TaskType.TRANSITION_PREDICTION : String := "transition_prediction"

def TaskType.PATTERN_MATCHING : String := "pattern_matching"

def TaskType.LEARNING_INFERENCE : String := "learning_inference"

/-- Modelled from the spec: the AnalysisSource identifiers exported by the
missing resultReconciliator.js module; the glossary and the priority order
of section 4.3 name the five techniques (structural, perceptual,
heuristic, learned, pattern-based), which taskOrchestrator.js refers to as
DOM, VISION, HEURISTIC, LEARNING and PATTERN. -/
def AnalysisSource.DOM : String := "dom"

/-- Modelled from the spec: see AnalysisSource.DOM. -/
def AnalysisSource.VISION : String := "vision"

/-- Modelled from the spec: see AnalysisSource.DOM. -/
def AnalysisSource.HEURISTIC : String := "heuristic"

/-- Modelled from the spec: see AnalysisSource.DOM. -/
def AnalysisSource.LEARNING : String := "learning"

/-- Modelled from the spec: see AnalysisSource.DOM. -/
def AnalysisSource.PATTERN : String := "pattern"

/-- The fixed action enumeration of the specification (section 3,
AnalysisResult). -/
def actionEnum : List String :=
  ["click", "type", "scroll", "navigate", "wait", "done", "ask", "continue"]

/-- A candidate analysis result, the payload a task produces on success.
Free-form metadata is not modelled; every other field of the JS objects
built by the executors is present.  Absent (undefined) fields are none. -/
structure AnalysisResult where
  source : Option String := none
  action : String := "wait"
  selector : Option String := none
  confidence : Option ℚ := none
  reason : String := ""
  sources : Option (List String) := none
deriving DecidableEq, Repr

/-- Viewport metadata carried by an analysis request. -/
structure Viewport where
  width : ℤ := 0
  height : ℤ := 0
  scrollX : ℤ := 0
  scrollY : ℤ := 0
deriving DecidableEq, Repr

/-- A DOM node with position data, as carried by analysisData.domNodes. -/
structure DomNode where
  selector : String := ""
deriving DecidableEq, Repr

/-- The caller-supplied proposed action read by executeTransitionPrediction. -/
structure ProposedAction where
  action : Option String := none
  selector : Option String := none
  text : Option String := none
deriving DecidableEq, Repr

/-- The analysisData argument of executeParallelAnalysis. -/
structure AnalysisData where
  dom : String := ""
  screenshot : Option String := none
  url : Option String := none
  goal : String := ""
  context : Option String := none
  viewport : Option Viewport := none
  domNodes : Option (List DomNode) := none
  proposedAction : Option ProposedAction := none
deriving DecidableEq, Repr

/-- The constructor-time configuration of a TaskOrchestrator, restricted to
the feature toggles the verified claims depend on.  The constructor creates
the Phase 2 components exactly when enableVisualAnalysis is true and the
Phase 3 components (stateTracker, animationDetector, transitionPredictor)
exactly when enableTemporalAnalysis is true. -/
structure OrchestratorConfig where
  enableVisualAnalysis : Bool := true
  enableTemporalAnalysis : Bool := true
deriving DecidableEq, Repr

/-- The options argument of executeParallelAnalysis. -/
structure AnalysisOptions where
  analysisTypes : Option (List String) := none
  useVisualAnalysis : Option Bool := none
  useTemporalAnalysis : Option Bool := none
deriving DecidableEq, Repr

/-- The effective temporal toggle: options.useTemporalAnalysis when it is
defined, the constructor flag otherwise (taskOrchestrator.js lines 316-318). -/
def effUseTemporal (cfg : OrchestratorConfig) (opts : AnalysisOptions) : Bool :=
  opts.useTemporalAnalysis.getD cfg.enableTemporalAnalysis

/-- The effective visual toggle: options.useVisualAnalysis when it is
defined, the constructor flag otherwise (taskOrchestrator.js lines 336-338). -/
def effUseVisual (cfg : OrchestratorConfig) (opts : AnalysisOptions) : Bool :=
  opts.useVisualAnalysis.getD cfg.enableVisualAnalysis

/-- Whether the state tracker holds a current state after the capture step
at the top of executeParallelAnalysis (lines 320-327): when the effective
temporal toggle is on and the tracker exists (it exists exactly when
enableTemporalAnalysis is true), captureState stores the request snapshot.
Modelled from the spec: the missing StateTracker module's captureState
makes getCurrentState return the stored snapshot, so it is non-null
afterwards. -/
def trackerStateAfterCapture (cfg : OrchestratorConfig) (opts : AnalysisOptions)
    (hasState : Bool) : Bool :=
  if effUseTemporal cfg opts && cfg.enableTemporalAnalysis then true else hasState

/-- The task plan derived by executeParallelAnalysis (lines 329-360),
transcribed statement by statement: the explicit analysisTypes override or
the default pair; prepending segmentation and classification and appending
visual mapping under the visual conditions; appending the temporal tasks;
appending transition prediction when the predictor exists (it exists
exactly when enableTemporalAnalysis is true) and the tracker holds a
current state.  The hasState argument is the tracker state at line 357,
after the capture step. -/
def planTasks (cfg : OrchestratorConfig) (opts : AnalysisOptions)
    (data : AnalysisData) (hasState : Bool) : List String :=
  let base := opts.analysisTypes.getD [TaskType.DOM_ANALYSIS, TaskType.VISION_ANALYSIS]
  let types1 :=
    if effUseVisual cfg opts && jsTruthyStr data.screenshot && data.viewport.isSome then
      let pre := [TaskType.VISUAL_SEGMENTATION, TaskType.ELEMENT_CLASSIFICATION] ++ base
      if data.domNodes.isSome && decide (0 < (data.domNodes.getD []).length) then
        pre ++ [TaskType.VISUAL_MAPPING]
      else pre
    else base
  if effUseTemporal cfg opts then
    let types2 := types1 ++ [TaskType.STATE_TRACKING, TaskType.ANIMATION_DETECTION]
    if cfg.enableTemporalAnalysis && hasState then
      types2 ++ [TaskType.TRANSITION_PREDICTION]
    else types2
  else types1

/-- Whether a prior state exists in the sense of the decision table: the
state tracker exists (temporal components constructed) and holds a state. -/
def priorStateExists (cfg : OrchestratorConfig) (hasState : Bool) : Bool :=
  cfg.enableTemporalAnalysis && hasState

/-- The decision table of the specification (section 4.2), written as a
direct concatenation: base tasks (structural and perceptual unless
overridden), then the visual rows, then the temporal rows. -/
def specTaskPlan (base : List String) (segCond mapCond tempCond predCond : Bool) :
    List String :=
  (if segCond then [TaskType.VISUAL_SEGMENTATION, TaskType.ELEMENT_CLASSIFICATION] else [])
    ++ base
    ++ (if mapCond then [TaskType.VISUAL_MAPPING] else [])
    ++ (if tempCond then [TaskType.STATE_TRACKING, TaskType.ANIMATION_DETECTION] else [])
    ++ (if predCond then [TaskType.TRANSITION_PREDICTION] else [])

/-- One settled job outcome, as delivered by Promise.allSettled: fulfilled
with a value (none models a falsy value) or rejected with an optional
error message. -/
inductive SettledOutcome where
  | fulfilled (value : Option AnalysisResult)
  | rejected (message : Option String)
deriving DecidableEq, Repr

/-- The check at line 397 of taskOrchestrator.js: an outcome counts as a
success when it is fulfilled and its value is truthy. -/
def SettledOutcome.isSuccess : SettledOutcome → Bool
  | .fulfilled (some _) => true
  | _ => false

/-- The successful value of an outcome, if any. -/
def SettledOutcome.value : SettledOutcome → Option AnalysisResult
  | .fulfilled (some r) => some r
  | _ => none

/-- The failure reason recorded at line 403: the rejection reason's message
when truthy, the string Unknown error otherwise (a fulfilled-but-falsy
outcome has no reason property). -/
def SettledOutcome.failureReason : SettledOutcome → String
  | .rejected m => jsOrStr m "Unknown error"
  | .fulfilled _ => "Unknown error"

/-- One entry of the failedTasks list built at lines 400-404. -/
structure FailedTask where
  taskId : String
  taskType : String
  reason : String
deriving DecidableEq, Repr

/-- The forEach loop of lines 396-406: walk the settled outcomes with their
index, collecting successful values in order and recording, for every
non-success, a failure entry holding the task id and task type at the same
index of the originally planned lists (an out-of-range JS index reads
undefined). -/
def collectOutcomes (taskIds taskTypes : List String) :
    List SettledOutcome → ℕ → List AnalysisResult × List FailedTask
  | [], _ => ([], [])
  | o :: rest, i =>
    let tail := collectOutcomes taskIds taskTypes rest (i + 1)
    match o with
    | .fulfilled (some r) => (r :: tail.1, tail.2)
    | o2 =>
        (tail.1,
          { taskId := taskIds.getD i "undefined",
            taskType := taskTypes.getD i "undefined",
            reason := o2.failureReason } :: tail.2)

/-- The successful results of an analysis run, in settled order. -/
def successfulResults (taskIds taskTypes : List String)
    (outcomes : List SettledOutcome) : List AnalysisResult :=
  (collectOutcomes taskIds taskTypes outcomes 0).1

/-- The failed-task records of an analysis run, in settled order. -/
def failedTaskRecords (taskIds taskTypes : List String)
    (outcomes : List SettledOutcome) : List FailedTask :=
  (collectOutcomes taskIds taskTypes outcomes 0).2

/-- The aggregation step of executeParallelAnalysis (lines 412-426): zero
successes throw the aggregate error, a single success is returned with its
confidence and sources fields rewritten, two or more successes are passed
to the reconciliator together with the request's context.  The
reconciliator is a parameter so that theorems can quantify over it. -/
def aggregateResults (reconcile : List AnalysisResult → Option String → AnalysisResult)
    (ctx : Option String) :
    List AnalysisResult → Except String AnalysisResult
  | [] => .error "All analysis tasks failed"
  | [r] =>
      .ok { r with
        confidence := some (jsOrNum r.confidence (7 / 10)),
        sources := some [jsOrStr r.source "unknown"] }
  | r1 :: r2 :: rest => .ok (reconcile (r1 :: r2 :: rest) ctx)

/-- The result-production path of executeParallelAnalysis: collect the
settled outcomes of the submitted jobs, then aggregate.  The outcomes list
is positionally aligned with the submitted task ids and planned task
types, exactly as Promise.allSettled aligns with the submission loop. -/
def runAnalysisAggregation (reconcile : List AnalysisResult → Option String → AnalysisResult)
    (ctx : Option String) (taskIds taskTypes : List String)
    (outcomes : List SettledOutcome) : Except String AnalysisResult :=
  aggregateResults reconcile ctx (successfulResults taskIds taskTypes outcomes)

/-- An action suggestion as returned by segmentationToAction. -/
structure ActionSuggestion where
  action : String
  selector : Option String
  confidence : ℚ
  reason : String
deriving DecidableEq, Repr

/-- A region of a screenshot segmentation, as produced by the external
segmentation service. -/
structure SegRegion where
  type : String := ""
deriving DecidableEq, Repr

/-- A functional area of a screenshot segmentation. -/
structure FunctionalArea where
  type : String := ""
deriving DecidableEq, Repr

/-- The segmentation output of the external ScreenshotSegmenter (spec
section 6), an input to the orchestrator's segmentation executor. -/
structure Segmentation where
  regions : List SegRegion := []
  functionalAreas : List FunctionalArea := []
deriving DecidableEq, Repr

/-- The segmentationToAction translation (taskOrchestrator.js lines
599-615): a modal or popup region wins, then a form goal with a form area,
then the scrolling default. -/
def segmentationToAction (seg : Segmentation) (goal : String) : ActionSuggestion :=
  let goalLower := goal.toLower
  if seg.regions.any (fun r => r.type = "modal" || r.type = "popup") then
    ⟨"click", none, 4 / 5, "Modal detected, should close before proceeding"⟩
  else if (strContains goalLower "form" || strContains goalLower "submit"
        || strContains goalLower "fill")
      && seg.functionalAreas.any (fun a => a.type = "form") then
    ⟨"type", none, 3 / 4, "Form area detected in content region"⟩
  else
    ⟨"scroll", none, 3 / 5, "Continue exploring page content"⟩

/-- The executeDomAnalysis task (lines 523-551).  The cookie-banner
regular-expression match is modelled as an explicit argument carrying the
captured digit group when the regex matches, since the verified claims do
not depend on the matcher; the element count and decoy flags only feed the
unmodelled free-form metadata. -/
def executeDomAnalysis (dom : String) (popupMatch : Option String) : AnalysisResult :=
  let hasPopups := strContains dom "[IN-POPUP]" || strContains dom "[COOKIE-BANNER]"
  if hasPopups then
    match popupMatch with
    | some idDigits =>
        { source := some AnalysisSource.DOM, action := "click",
          selector := some ("[data-agent-id=\x27" ++ idDigits ++ "\x27]"),
          confidence := some (9 / 10), reason := "Close cookie banner" }
    | none =>
        { source := some AnalysisSource.DOM, action := "wait", selector := none,
          confidence := some (3 / 5), reason := "DOM analysis" }
  else
    { source := some AnalysisSource.DOM, action := "wait", selector := none,
      confidence := some (3 / 5), reason := "DOM analysis" }

/-- The executeVisionAnalysis task (lines 553-564). -/
def executeVisionAnalysis : AnalysisResult :=
  { source := some AnalysisSource.VISION, action := "scroll",
    confidence := some (7 / 10), reason := "Vision analysis suggests scrolling" }

/-- The executeVisualSegmentation task (lines 566-597): the guard throws
when the segmenter (constructed exactly when visual analysis is enabled),
the screenshot or the viewport is missing; otherwise the external
segmenter's output is translated by segmentationToAction. -/
def executeVisualSegmentation (cfg : OrchestratorConfig) (data : AnalysisData)
    (segmentation : Segmentation) : Except String AnalysisResult :=
  if !cfg.enableVisualAnalysis || !jsTruthyStr data.screenshot || !data.viewport.isSome then
    .error "Visual segmentation requires screenshot and viewport data"
  else
    let a := segmentationToAction segmentation data.goal
    .ok { source := some AnalysisSource.VISION, action := a.action, selector := a.selector,
          confidence := some a.confidence, reason := a.reason }

/-- A classification produced by the external UIElementClassifier. -/
structure Classification where
  type : String := ""
  interaction : String := ""
  confidence : ℚ := 0
deriving DecidableEq, Repr

/-- A page element as extracted from the DOM string by
extractElementsFromDom. -/
structure PageElement where
  tag : String := ""
  selector : String := ""
  text : String := ""
deriving DecidableEq, Repr, Inhabited

/-- The executeElementClassification task (lines 617-656).  The regex
extraction of page elements and the external classifier's batch output are
modelled as parallel input lists; JS object identity in indexOf is
modelled as structural equality.  The JS descending stable sort followed by
taking the head is modelled as the earliest classification of maximal
confidence. -/
def executeElementClassification (cfg : OrchestratorConfig)
    (elements : List PageElement) (classifications : List Classification) :
    Except String AnalysisResult :=
  if !cfg.enableVisualAnalysis then
    .error "Element classification requires UIElementClassifier"
  else
    let interactive := classifications.filter
      (fun c => c.interaction = "clickable" || c.interaction = "editable")
    match interactive with
    | [] =>
        .ok { source := some AnalysisSource.HEURISTIC, action := "wait",
              confidence := some (1 / 2),
              reason := "No clear interactive elements classified" }
    | c0 :: cs =>
        let best := cs.foldl (fun b c => if b.confidence < c.confidence then c else b) c0
        let idx := classifications.findIdx (fun c => c == best)
        let element := elements.getD idx default
        .ok { source := some AnalysisSource.HEURISTIC,
              action := if best.interaction = "editable" then "type" else "click",
              selector := some element.selector,
              confidence := some best.confidence,
              reason := "Classified as " ++ best.type ++ " with "
                ++ best.interaction ++ " interaction" }

/-- One mapping entry of the external VisualDomMapper's output: the mapped
node's selector and the mapper's confidence label. -/
structure VisualMapping where
  selector : String := ""
  confidence : String := ""
deriving DecidableEq, Repr

/-- The output of the external VisualDomMapper. -/
structure MappingOutput where
  mappings : List VisualMapping := []
deriving DecidableEq, Repr

/-- The confidence-label table of mapConfidenceToScore (lines 864-870),
with the one-half default for unknown labels. -/
def mapConfidenceToScore (c : String) : ℚ :=
  if c = "exact" then 19 / 20
  else if c = "high" then 17 / 20
  else if c = "medium" then 7 / 10
  else if c = "low" then 1 / 2
  else if c = "uncertain" then 3 / 10
  else 1 / 2

/-- The executeVisualMapping task (lines 688-723): the guard throws when
the mapper (constructed exactly when visual analysis is enabled) or the
positional nodes are missing; the first mapping wins when its confidence
label is not uncertain. -/
def executeVisualMapping (cfg : OrchestratorConfig) (data : AnalysisData)
    (mapping : MappingOutput) : Except String AnalysisResult :=
  if !cfg.enableVisualAnalysis || !data.domNodes.isSome then
    .error "Visual mapping requires VisualDomMapper and DOM nodes"
  else
    match mapping.mappings.head? with
    | some best =>
        if best.confidence ≠ "uncertain" then
          .ok { source := some AnalysisSource.VISION, action := "click",
                selector := some best.selector,
                confidence := some (mapConfidenceToScore best.confidence),
                reason := "Visual-DOM mapping identified target element" }
        else
          .ok { source := some AnalysisSource.VISION, action := "wait",
                confidence := some (2 / 5),
                reason := "No confident visual-DOM mapping found" }
    | none =>
        .ok { source := some AnalysisSource.VISION, action := "wait",
              confidence := some (2 / 5),
              reason := "No confident visual-DOM mapping found" }

/-- A change set as returned by the external StateTracker's detectChanges.
Modelled from the spec: the missing stateTracker.js exports a ChangeType
enumeration whose URL member tags address changes; it is modelled as the
tag url. -/
structure ChangeSet where
  changeTypes : List String := []
  magnitude : ℚ := 0
deriving DecidableEq, Repr

/-- The executeStateTracking task (lines 731-777): no change set means the
first capture, a URL change or a large magnitude asks to wait, otherwise
the page is stable. -/
def executeStateTracking (cfg : OrchestratorConfig) (changes : Option ChangeSet) :
    Except String AnalysisResult :=
  if !cfg.enableTemporalAnalysis then
    .error "State tracking requires StateTracker"
  else
    match changes with
    | none =>
        .ok { source := some AnalysisSource.HEURISTIC, action := "wait",
              confidence := some (7 / 10),
              reason := "First state captured, no changes to analyze" }
    | some ch =>
        if ch.changeTypes.contains "url" then
          .ok { source := some AnalysisSource.HEURISTIC, action := "wait",
                confidence := some (4 / 5),
                reason := "URL changed, waiting for page to stabilize" }
        else if (1 : ℚ) / 2 < ch.magnitude then
          .ok { source := some AnalysisSource.HEURISTIC, action := "wait",
                confidence := some (3 / 4),
                reason := "Significant page changes detected, waiting for stability" }
        else
          .ok { source := some AnalysisSource.HEURISTIC, action := "continue",
                confidence := some (3 / 5),
                reason := "Page state stable, proceed with next action" }

/-- The animation analysis returned by the external AnimationDetector. -/
structure AnimationAnalysis where
  shouldWait : Bool := false
  animationCount : ℕ := 0
  estimatedCompletionTime : ℤ := 0
deriving DecidableEq, Repr

/-- The executeAnimationDetection task (lines 785-821). -/
def executeAnimationDetection (cfg : OrchestratorConfig)
    (analysis : AnimationAnalysis) : Except String AnalysisResult :=
  if !cfg.enableTemporalAnalysis then
    .error "Animation detection requires AnimationDetector"
  else if analysis.shouldWait then
    .ok { source := some AnalysisSource.HEURISTIC, action := "wait",
          confidence := some (9 / 10),
          reason := "Animations detected (" ++ toString analysis.animationCount
            ++ "), waiting for completion" }
  else
    .ok { source := some AnalysisSource.HEURISTIC, action := "continue",
          confidence := some (7 / 10),
          reason := "No blocking animations detected" }

/-- The prediction returned by the external TransitionPredictor (spec
section 6). -/
structure TransitionPrediction where
  confidence : ℚ := 0
  predictedOutcome : String := ""
  successProbability : ℚ := 0
  estimatedDuration : ℤ := 0
deriving DecidableEq, Repr

/-- The JS expression with optional chaining and two vertical bars against
a null default on a string field: undefined and the empty string give
null. -/
def jsOrNullStr : Option String → Option String
  | none => none
  | some s => if s = "" then none else some s

/-- The executeTransitionPrediction task (lines 829-862): the
caller-supplied proposed action is passed through with JS-falsy defaults
(wait and null), and the external predictor supplies the confidence.  The
percentage formatting inside the reason string is not modelled. -/
def executeTransitionPrediction (cfg : OrchestratorConfig) (data : AnalysisData)
    (prediction : TransitionPrediction) : Except String AnalysisResult :=
  if !cfg.enableTemporalAnalysis then
    .error "Transition prediction requires TransitionPredictor and StateTracker"
  else
    .ok { source := some AnalysisSource.LEARNING,
          action := jsOrStr (data.proposedAction.bind (fun p => p.action)) "wait",
          selector := jsOrNullStr (data.proposedAction.bind (fun p => p.selector)),
          confidence := some prediction.confidence,
          reason := "Predicted " ++ prediction.predictedOutcome ++ " outcome" }

/-- The executePatternMatching task (lines 872-882). -/
def executePatternMatching : AnalysisResult :=
  { source := some AnalysisSource.PATTERN, action := "click",
    confidence := some (3 / 4), reason := "Pattern matching result" }

/-- The executeLearningInference task (lines 884-894). -/
def executeLearningInference : AnalysisResult :=
  { source := some AnalysisSource.LEARNING, action := "type",
    confidence := some (13 / 20), reason := "Learning-based inference" }

/-- Job states of the Job Queue state machine (spec section 3). -/
inductive JobState where
  | pending
  | running
  | completed
  | failed
  | cancelled
  | timedOut
deriving DecidableEq, Repr

/-- Terminal job states (spec section 3): completed, failed after
exhausted retries, timed out after exhausted retries, cancelled. -/
def JobState.isTerminal : JobState → Bool
  | .completed => true
  | .failed => true
  | .cancelled => true
  | .timedOut => true
  | _ => false

/-- The Job Queue's bookkeeping record for one job. -/
structure JobRecord where
  state : JobState := .pending
  createdAt : ℤ := 0
deriving DecidableEq, Repr

/-- The Job Queue's tracked jobs, modelled as an insertion-ordered map. -/
structure JobQueue where
  jobs : List (String × JobRecord) := []
deriving DecidableEq, Repr

/-- Modelled from the spec: the missing jobQueue.js cancel operation
(section 4.1) returns true only if the job was in a cancellable state
(Pending or Running) at the time of the call, marking it Cancelled; it
returns false for terminal or unknown jobs and changes nothing. -/
def JobQueue.cancelJob (q : JobQueue) (id : String) : Bool × JobQueue :=
  match lookupA q.jobs id with
  | none => (false, q)
  | some j =>
      if j.state = .pending || j.state = .running then
        (true, ⟨setA q.jobs id { j with state := .cancelled }⟩)
      else (false, q)

/-- The removal condition of the Job Queue's cleanup for one tracked job:
terminal and strictly older than the age threshold. -/
def jobExpired (now maxAge : ℤ) (e : String × JobRecord) : Bool :=
  e.2.state.isTerminal && decide (maxAge < now - e.2.createdAt)

/-- Modelled from the spec: the missing jobQueue.js cleanup operation
(section 4.1) removes terminal jobs older than the threshold from internal
tracking, returns the removed count and does not affect running (or
pending) jobs. -/
def JobQueue.cleanupJobs (q : JobQueue) (now maxAge : ℤ) : JobQueue × ℕ :=
  let kept := q.jobs.filter (fun e => !jobExpired now maxAge e)
  (⟨kept⟩, q.jobs.length - kept.length)

/-- Modelled from the spec: the missing jobQueue.js status operation
returns the job's record, or none if unknown or expired. -/
def JobQueue.getJobStatus (q : JobQueue) (id : String) : Option JobRecord :=
  lookupA q.jobs id

/-- The orchestrator's per-task bookkeeping record (created at lines
484-489). -/
structure TaskRecord where
  type : String := ""
  status : String := "pending"
  createdAt : ℤ := 0
deriving DecidableEq, Repr

/-- The orchestrator's per-analysis bookkeeping record (created at lines
380-386). -/
structure AnalysisRecord where
  taskIds : List String := []
  taskTypes : List String := []
  startTime : ℤ := 0
  status : String := "running"
deriving DecidableEq, Repr

/-- The mutable bookkeeping state of a TaskOrchestrator: the job queue,
the tasks map, the activeAnalyses map and the cancelled-task counter of
the statistics block. -/
structure OrchestratorState where
  jobQueue : JobQueue := ⟨[]⟩
  tasks : List (String × TaskRecord) := []
  activeAnalyses : List (String × AnalysisRecord) := []
  cancelledTasks : ℕ := 0
deriving DecidableEq, Repr

/-- The cancellation loop of cancelAnalysis (lines 905-910): cancel each
constituent job through the Job Queue in order, counting the successes. -/
def cancelJobsFold : JobQueue → List String → JobQueue × ℕ
  | q, [] => (q, 0)
  | q, tid :: rest =>
      let r := q.cancelJob tid
      let tail := cancelJobsFold r.2 rest
      (tail.1, (if r.1 then 1 else 0) + tail.2)

/-- Whether the Job Queue currently holds the job in a cancellable
(pending or running) state. -/
def cancellableIn (q : JobQueue) (id : String) : Bool :=
  match lookupA q.jobs id with
  | some j => decide (j.state = .pending) || decide (j.state = .running)
  | none => false

/-- The cancelAnalysis operation (lines 900-917): false for an unknown
analysis or one that is not running; otherwise every constituent job is
cancelled through the Job Queue, the analysis is marked cancelled, and the
number of jobs actually cancelled is added to the statistics counter. -/
def cancelAnalysis (st : OrchestratorState) (aid : String) : Bool × OrchestratorState :=
  match lookupA st.activeAnalyses aid with
  | none => (false, st)
  | some a =>
      if a.status ≠ "running" then (false, st)
      else
        let r := cancelJobsFold st.jobQueue a.taskIds
        (true,
          { st with
            jobQueue := r.1,
            activeAnalyses := setA st.activeAnalyses aid { a with status := "cancelled" },
            cancelledTasks := st.cancelledTasks + r.2 })

/-- The removal condition of lines 997-1002 for one analysis record: not
running, with a truthy (non-zero) start time, strictly older than the age
threshold. -/
def analysisExpired (now maxAge : ℤ) (e : String × AnalysisRecord) : Bool :=
  e.2.status != "running" && e.2.startTime != 0 && decide (maxAge < now - e.2.startTime)

/-- The removal condition of lines 1004-1009 for one task record: a truthy
creation time strictly older than the age threshold — the task's status
and its job's state are not consulted. -/
def taskExpired (now maxAge : ℤ) (e : String × TaskRecord) : Bool :=
  e.2.createdAt != 0 && decide (maxAge < now - e.2.createdAt)

/-- The cleanup operation (lines 993-1028): analyses are removed when not
running, with a truthy start time, strictly older than the age threshold;
task records are removed purely by age, with no status check; the Job
Queue's own cleanup runs afterwards and its count is added.  The external
cache clearing of the visual and temporal collaborators has no observable
effect on the modelled state. -/
def cleanup (st : OrchestratorState) (now maxAge : ℤ) : OrchestratorState × ℕ :=
  let analyses2 := st.activeAnalyses.filter (fun e => !analysisExpired now maxAge e)
  let cA := st.activeAnalyses.length - analyses2.length
  let tasks2 := st.tasks.filter (fun e => !taskExpired now maxAge e)
  let cT := st.tasks.length - tasks2.length
  let rq := st.jobQueue.cleanupJobs now maxAge
  ({ st with activeAnalyses := analyses2, tasks := tasks2, jobQueue := rq.1 },
    cA + cT + rq.2)

/-- The merged view returned by getTaskStatus: the Job Queue's status
record together with the orchestrator's task type. -/
structure TaskStatusView where
  job : JobRecord
  type : String
deriving DecidableEq, Repr

/-- The getTaskStatus operation (lines 931-938): none (JS null) when
either the Job Queue's status entry or the orchestrator's task record is
missing; no exception is ever thrown since the function is total. -/
def getTaskStatus (st : OrchestratorState) (taskId : String) : Option TaskStatusView :=
  match st.jobQueue.getJobStatus taskId, lookupA st.tasks taskId with
  | some js, some t => some ⟨js, t.type⟩
  | _, _ => none

/-- The view returned by getAnalysisStatus: the analysis record together
with the statuses of its constituent tasks. -/
structure AnalysisStatusView where
  analysis : AnalysisRecord
  tasks : List (Option TaskStatusView)
deriving DecidableEq, Repr

/-- The getAnalysisStatus operation (lines 940-946): none (JS null) for an
unknown analysis id; no exception is ever thrown since the function is
total. -/
def getAnalysisStatus (st : OrchestratorState) (aid : String) : Option AnalysisStatusView :=
  match lookupA st.activeAnalyses aid with
  | none => none
  | some a => some ⟨a, a.taskIds.map (getTaskStatus st)⟩

/-- The confidence of a candidate, defaulted to zero when absent; the
specification's invariant makes the field present on every successful
result. -/
def confOf (r : AnalysisResult) : ℚ := r.confidence.getD 0

/-- The (action, selector) pair of a candidate, the identity the
specification's agreement grouping is computed over (section 4.3). -/
def rKey (r : AnalysisResult) : String × Option String := (r.action, r.selector)

/-- Modelled from the spec: whether a proposed action requires a target
element.  Section 4.3 names scroll, wait and done as examples of actions
that do not require one; in the fixed enumeration only click and type act
on a target element, so every other action is targetless. -/
def actionRequiresTarget (a : String) : Bool :=
  a = "click" || a = "type"

/-- Modelled from the spec: agreement between two candidates for the
grouping of section 4.3 — identical (action, selector) pairs agree, and in
addition a null/absent selector matches any selector when the shared
action does not require a target (the scroll/wait/done wildcard rule). -/
def candMatches (a b : AnalysisResult) : Bool :=
  a.action = b.action
    && (a.selector == b.selector
      || (!actionRequiresTarget a.action && (a.selector.isNone || b.selector.isNone)))

/-- Modelled from the spec: the fixed source-priority order of section 4.3
(structural, then perceptual, then heuristic, then learned, then
pattern-based), lower rank preferred; unknown sources rank last. -/
def sourcePriority : Option String → ℕ
  | none => 5
  | some s =>
      if s = "dom" then 0
      else if s = "vision" then 1
      else if s = "heuristic" then 2
      else if s = "learning" then 3
      else if s = "pattern" then 4
      else 5

/-- An agreement group: a non-empty collection of candidates agreeing on
one (action, selector) identity (with the null-selector wildcard for
targetless actions), kept in arrival order. -/
structure CandidateGroup where
  first : AnalysisResult
  rest : List AnalysisResult
deriving DecidableEq, Repr

/-- The members of a group, in arrival order. -/
def CandidateGroup.members (g : CandidateGroup) : List AnalysisResult :=
  g.first :: g.rest

/-- The number of contributing candidates of a group. -/
def CandidateGroup.size (g : CandidateGroup) : ℕ := g.members.length

/-- The maximum individual confidence within a group. -/
def CandidateGroup.maxConf (g : CandidateGroup) : ℚ :=
  g.rest.foldl (fun m r => max m (confOf r)) (confOf g.first)

/-- The best (smallest) source-priority rank within a group. -/
def CandidateGroup.bestPriority (g : CandidateGroup) : ℕ :=
  g.rest.foldl (fun m r => min m (sourcePriority r.source)) (sourcePriority g.first.source)

/-- Modelled from the spec: the agreement bonus per additional agreeing
candidate; section 4.3 leaves the exact curve open and asks for a bonus
that grows with the number of contributing sources, capped at one. -/
def agreementBonus : ℚ := 1 / 10

/-- Modelled from the spec: the combined confidence of a group, a function
of the maximum individual confidence and an agreement bonus growing with
the group size, capped at one (spec section 4.3). -/
def CandidateGroup.combined (g : CandidateGroup) : ℚ :=
  min 1 (g.maxConf + agreementBonus * ((g.size - 1 : ℕ) : ℚ))

/-- Modelled from the spec: the preference key of a group for the
selection of section 4.3 — combined confidence first, then the number of
contributing sources, then the best single confidence, each descending,
and finally the fixed source-priority order ascending (encoded negated so
that a lexicographically larger key is always the preferred one). -/
def groupKey (g : CandidateGroup) : ℚ ×ₗ (ℚ ×ₗ (ℚ ×ₗ ℚ)) :=
  toLex (g.combined, toLex (((g.size : ℕ) : ℚ), toLex (g.maxConf, -((g.bestPriority : ℕ) : ℚ))))

/-- Modelled from the spec: the strict preference order between groups of
section 4.3 — higher combined confidence, then more contributing sources,
then higher best single confidence, then the fixed source-priority order. -/
def betterGroup (a b : CandidateGroup) : Bool :=
  decide (groupKey b < groupKey a)

/-- Insert one candidate into the group list, joining the first group it
agrees with under candMatches (identical key, or the null-selector
wildcard for targetless actions) or opening a new group at the end. -/
def addCandidate : List CandidateGroup → AnalysisResult → List CandidateGroup
  | [], c => [⟨c, []⟩]
  | g :: gs, c =>
      if candMatches g.first c then ⟨g.first, g.rest ++ [c]⟩ :: gs
      else g :: addCandidate gs c

/-- Group the candidates by (action, selector) agreement, including the
null-selector wildcard of section 4.3, in first-occurrence order. -/
def groupCandidates (l : List AnalysisResult) : List CandidateGroup :=
  l.foldl addCandidate []

/-- Select the most preferred group, keeping the earlier group when
neither is strictly better. -/
def pickBestGroup (g : CandidateGroup) (gs : List CandidateGroup) : CandidateGroup :=
  gs.foldl (fun best h => if betterGroup h best then h else best) g

/-- Modelled from the spec: the reconcile operation of the missing
resultReconciliator.js (section 4.3) — guard against fewer than two
candidates, group by (action, selector) identity with a null/absent
selector matching any selector for actions that do not require a target,
combine confidences with the agreement bonus, select the best group under
the preference order, and return the winning action and selector with the
combined confidence and the contributing sources.  The context argument
carries the request's context and does not influence the merge. -/
def reconcile (candidates : List AnalysisResult) (_ctx : Option String) :
    Except String AnalysisResult :=
  match candidates with
  | [] => .error "Reconciliation requires at least two candidates"
  | [_] => .error "Reconciliation requires at least two candidates"
  | c1 :: c2 :: rest =>
      match groupCandidates (c1 :: c2 :: rest) with
      | [] => .error "Reconciliation requires at least two candidates"
      | g :: gs =>
          let w := pickBestGroup g gs
          .ok { source := w.first.source, action := w.first.action,
                selector := w.first.selector,
                confidence := some w.combined,
                reason := "Agreement of " ++ toString w.size ++ " candidate(s)",
                sources := some (w.members.map (fun r => jsOrStr r.source "unknown")) }

/-- Characterization of the collection loop: the successful values in
settled order, the failure records labelled with the index-aligned task id
and task type, and the accounting of every outcome. -/
theorem collectOutcomes_spec (taskIds taskTypes : List String) :
    ∀ (outcomes : List SettledOutcome) (i : ℕ),
      (collectOutcomes taskIds taskTypes outcomes i).1
          = outcomes.filterMap SettledOutcome.value
        ∧ (collectOutcomes taskIds taskTypes outcomes i).2
          = (outcomes.enumFrom i).filterMap
              (fun p =>
                if p.2.isSuccess then none
                else some
                  { taskId := taskIds.getD p.1 "undefined",
                    taskType := taskTypes.getD p.1 "undefined",
                    reason := p.2.failureReason })
  | [], _ => by simp [collectOutcomes, List.enumFrom]
  | o :: rest, i => by
      obtain ⟨h1, h2⟩ := collectOutcomes_spec taskIds taskTypes rest (i + 1)
      cases o with
      | fulfilled v =>
          cases v <;>
            simp [collectOutcomes, List.enumFrom, SettledOutcome.value,
              SettledOutcome.isSuccess, SettledOutcome.failureReason, h1, h2]
      | rejected m =>
          simp [collectOutcomes, List.enumFrom, SettledOutcome.value,
            SettledOutcome.isSuccess, SettledOutcome.failureReason, h1, h2]

/-- Every settled outcome is accounted either as a success or as a failure
record. -/
theorem collectOutcomes_length (taskIds taskTypes : List String) :
    ∀ (outcomes : List SettledOutcome) (i : ℕ),
      (collectOutcomes taskIds taskTypes outcomes i).1.length
          + (collectOutcomes taskIds taskTypes outcomes i).2.length
        = outcomes.length
  | [], _ => by simp [collectOutcomes]
  | o :: rest, i => by
      have h := collectOutcomes_length taskIds taskTypes rest (i + 1)
      cases o with
      | fulfilled v => cases v <;> simp [collectOutcomes] <;> omega
      | rejected m => simp [collectOutcomes]; omega

/-- C7: executeParallelAnalysis waits for every submitted job's outcome
without short-circuiting on the first rejection — each of the settled
outcomes is accounted exactly once, the successful payloads are collected
in settled order, and the failure record built for the outcome at index i
carries the task id and the task type at index i of the originally planned
lists (order-preserving aggregation). -/
theorem executeParallelAnalysis_order_preserving
    (taskIds taskTypes : List String) (outcomes : List SettledOutcome) :
    (successfulResults taskIds taskTypes outcomes).length
        + (failedTaskRecords taskIds taskTypes outcomes).length = outcomes.length
    ∧ successfulResults taskIds taskTypes outcomes
        = outcomes.filterMap SettledOutcome.value
    ∧ failedTaskRecords taskIds taskTypes outcomes
        = (outcomes.enumFrom 0).filterMap
            (fun p =>
              if p.2.isSuccess then none
              else some
                { taskId := taskIds.getD p.1 "undefined",
                  taskType := taskTypes.getD p.1 "undefined",
                  reason := p.2.failureReason }) := by
  obtain ⟨h1, h2⟩ := collectOutcomes_spec taskIds taskTypes outcomes 0
  exact ⟨collectOutcomes_length taskIds taskTypes outcomes 0, h1, h2⟩

/-- C1: when zero of the submitted tasks succeed, executeParallelAnalysis
rejects with the aggregate all-tasks-failed error and no decision object
is produced. -/
theorem executeParallelAnalysis_all_failed_rejects
    (reconcileFn : List AnalysisResult → Option String → AnalysisResult)
    (ctx : Option String) (taskIds taskTypes : List String)
    (outcomes : List SettledOutcome)
    (h : ∀ o ∈ outcomes, o.isSuccess = false) :
    runAnalysisAggregation reconcileFn ctx taskIds taskTypes outcomes
      = .error "All analysis tasks failed" := by
  have hnil : successfulResults taskIds taskTypes outcomes = [] := by
    unfold successfulResults
    rw [(collectOutcomes_spec taskIds taskTypes outcomes 0).1]
    rw [List.filterMap_eq_nil_iff]
    intro o ho
    have := h o ho
    cases o with
    | fulfilled v => cases v <;> simp_all [SettledOutcome.isSuccess, SettledOutcome.value]
    | rejected m => simp [SettledOutcome.value]
  unfold runAnalysisAggregation
  rw [hnil]
  rfl

/-- Witness for C1 at a concrete run: two planned tasks, one rejected and
one fulfilled with a falsy value. -/
theorem executeParallelAnalysis_all_failed_rejects_witness :
    runAnalysisAggregation (fun l _ => l.headD {}) none ["t1", "t2"]
        [TaskType.DOM_ANALYSIS, TaskType.VISION_ANALYSIS]
        [.rejected (some "boom"), .fulfilled none]
      = .error "All analysis tasks failed" :=
  executeParallelAnalysis_all_failed_rejects (fun l _ => l.headD {}) none
    ["t1", "t2"] [TaskType.DOM_ANALYSIS, TaskType.VISION_ANALYSIS]
    [.rejected (some "boom"), .fulfilled none] (by decide)

/-- Counterexample to C2 as stated: a call whose single successful task
carries a present confidence equal to zero does not return the payload
as-is — the zero confidence is rewritten to seven tenths, because the JS
default uses falsiness rather than absence. -/
theorem executeParallelAnalysis_single_success_cex :
    runAnalysisAggregation (fun l _ => l.headD {}) none ["t1", "t2"]
        [TaskType.DOM_ANALYSIS, TaskType.VISION_ANALYSIS]
        [.fulfilled (some { source := some "dom", action := "wait", confidence := some 0 }),
         .rejected none]
      = .ok { source := some "dom", action := "wait", confidence := some (7 / 10),
              sources := some ["dom"] }
    ∧ some (7 / 10 : ℚ) ≠ some (0 : ℚ) := by
  constructor
  · rfl
  · norm_num

/-- C2 (amended): when exactly one submitted task succeeds, the returned
value is that task's payload with its confidence replaced by seven tenths
whenever the field is absent or zero (JS-falsy), and with its sources
field set to the one-element list holding the result's source identifier,
replaced by the string unknown whenever the field is absent or empty. -/
theorem executeParallelAnalysis_single_success
    (reconcileFn : List AnalysisResult → Option String → AnalysisResult)
    (ctx : Option String) (taskIds taskTypes : List String)
    (outcomes : List SettledOutcome) (r : AnalysisResult)
    (h : successfulResults taskIds taskTypes outcomes = [r]) :
    runAnalysisAggregation reconcileFn ctx taskIds taskTypes outcomes
      = .ok { r with
          confidence := some
            (match r.confidence with
              | none => 7 / 10
              | some c => if c = 0 then 7 / 10 else c),
          sources := some
            [(match r.source with
              | none => "unknown"
              | some s => if s = "" then "unknown" else s)] } := by
  unfold runAnalysisAggregation
  rw [h]
  rfl

/-- Witness for the amended C2 at a concrete run: one success of
confidence three fifths next to a failure. -/
theorem executeParallelAnalysis_single_success_witness :
    runAnalysisAggregation (fun l _ => l.headD {}) none ["t1", "t2"]
        [TaskType.DOM_ANALYSIS, TaskType.VISION_ANALYSIS]
        [.fulfilled
            (some
              { source := some "dom", action := "wait",
                confidence := some (3 / 5), reason := "DOM analysis" }),
         .rejected (some "boom")]
      = .ok
          { source := some "dom", action := "wait", confidence := some (3 / 5),
            reason := "DOM analysis", sources := some ["dom"] } := by
  have h := executeParallelAnalysis_single_success (fun l _ => l.headD {}) none
    ["t1", "t2"] [TaskType.DOM_ANALYSIS, TaskType.VISION_ANALYSIS]
    [.fulfilled
        (some
          { source := some "dom", action := "wait",
            confidence := some (3 / 5), reason := "DOM analysis" }),
     .rejected (some "boom")]
    { source := some "dom", action := "wait", confidence := some (3 / 5),
      reason := "DOM analysis" }
    (by rfl)
  rw [h]
  dsimp only
  norm_num
  intro hc
  exact absurd hc (by decide)

/-- C4: with two or more successes, the reconciliator receives exactly the
list of successful results together with the request's context and its
merged output is returned; and the aggregation consults the reconciliator
only on candidate lists of length at least two, so two reconciliators
agreeing on all such lists make executeParallelAnalysis agree. -/
theorem executeParallelAnalysis_reconciler_contract
    (rec1 rec2 : List AnalysisResult → Option String → AnalysisResult)
    (ctx : Option String) (taskIds taskTypes : List String)
    (outcomes : List SettledOutcome) :
    (∀ r1 r2 rest, successfulResults taskIds taskTypes outcomes = r1 :: r2 :: rest →
        runAnalysisAggregation rec1 ctx taskIds taskTypes outcomes
          = .ok (rec1 (r1 :: r2 :: rest) ctx))
    ∧ ((∀ l c, 2 ≤ l.length → rec1 l c = rec2 l c) →
        runAnalysisAggregation rec1 ctx taskIds taskTypes outcomes
          = runAnalysisAggregation rec2 ctx taskIds taskTypes outcomes) := by
  constructor
  · intro r1 r2 rest h
    unfold runAnalysisAggregation
    rw [h]
    rfl
  · intro hagree
    unfold runAnalysisAggregation
    cases hs : successfulResults taskIds taskTypes outcomes with
    | nil => rfl
    | cons a t =>
        cases t with
        | nil => rfl
        | cons b t2 =>
            exact congrArg Except.ok (hagree (a :: b :: t2) ctx (by simp))

/-- Witness for C4 at a concrete run with two successes. -/
theorem executeParallelAnalysis_reconciler_contract_witness :
    runAnalysisAggregation (fun l _ => l.headD {}) none ["t1", "t2"]
        [TaskType.DOM_ANALYSIS, TaskType.VISION_ANALYSIS]
        [.fulfilled (some { action := "wait" }), .fulfilled (some { action := "scroll" })]
      = .ok ((fun (l : List AnalysisResult) (_ : Option String) => l.headD {})
          [{ action := "wait" }, { action := "scroll" }] none)
    ∧ runAnalysisAggregation (fun l _ => l.headD {}) none ["t1", "t2"]
        [TaskType.DOM_ANALYSIS, TaskType.VISION_ANALYSIS]
        [.fulfilled (some { action := "wait" }), .fulfilled (some { action := "scroll" })]
      = runAnalysisAggregation (fun l _ => l.headD {}) none ["t1", "t2"]
        [TaskType.DOM_ANALYSIS, TaskType.VISION_ANALYSIS]
        [.fulfilled (some { action := "wait" }), .fulfilled (some { action := "scroll" })] := by
  constructor
  · exact (executeParallelAnalysis_reconciler_contract (fun l _ => l.headD {})
      (fun l _ => l.headD {}) none ["t1", "t2"]
      [TaskType.DOM_ANALYSIS, TaskType.VISION_ANALYSIS]
      [.fulfilled (some { action := "wait" }), .fulfilled (some { action := "scroll" })]).1
      { action := "wait" } { action := "scroll" } [] (by rfl)
  · exact (executeParallelAnalysis_reconciler_contract (fun l _ => l.headD {})
      (fun l _ => l.headD {}) none ["t1", "t2"]
      [TaskType.DOM_ANALYSIS, TaskType.VISION_ANALYSIS]
      [.fulfilled (some { action := "wait" }), .fulfilled (some { action := "scroll" })]).2
      (fun _ _ _ => rfl)

/-- C3: the task plan derived by executeParallelAnalysis follows the
decision table — the structural and perceptual base unless overridden by
explicit task types, segmentation and classification when a screenshot and
viewport are present and visual features are enabled, visual mapping
additionally when positional node metadata is present and non-empty,
state-change and animation detection when temporal features are enabled,
and transition prediction exactly when temporal features are enabled and a
prior state exists after the capture step. -/
theorem executeParallelAnalysis_task_plan (cfg : OrchestratorConfig)
    (opts : AnalysisOptions) (data : AnalysisData) (hasState : Bool) :
    planTasks cfg opts data (trackerStateAfterCapture cfg opts hasState)
      = specTaskPlan
          (opts.analysisTypes.getD [TaskType.DOM_ANALYSIS, TaskType.VISION_ANALYSIS])
          (effUseVisual cfg opts && jsTruthyStr data.screenshot && data.viewport.isSome)
          (effUseVisual cfg opts && jsTruthyStr data.screenshot && data.viewport.isSome
            && (data.domNodes.isSome && decide (0 < (data.domNodes.getD []).length)))
          (effUseTemporal cfg opts)
          (effUseTemporal cfg opts
            && priorStateExists cfg (trackerStateAfterCapture cfg opts hasState)) := by
  unfold planTasks specTaskPlan priorStateExists
  cases hv : effUseVisual cfg opts <;>
    cases ht : effUseTemporal cfg opts <;>
      cases hs : jsTruthyStr data.screenshot <;>
        cases hvp : data.viewport.isSome <;>
          cases hdn : data.domNodes.isSome
              && decide (0 < (data.domNodes.getD []).length) <;>
            cases he : cfg.enableTemporalAnalysis <;>
              cases hst : trackerStateAfterCapture cfg opts hasState <;>
                simp_all

/-- C10: a status query for an id the orchestrator does not track returns
null (none) rather than throwing — getTaskStatus is null when either the
orchestrator's task record or the Job Queue's status entry is missing, and
getAnalysisStatus is null when the analysis record is missing; both
functions are total, so no exception is possible. -/
theorem status_lookup_miss_returns_null (st : OrchestratorState) (id : String) :
    ((lookupA st.tasks id = none ∨ st.jobQueue.getJobStatus id = none) →
        getTaskStatus st id = none)
    ∧ (lookupA st.activeAnalyses id = none → getAnalysisStatus st id = none) := by
  constructor
  · intro h
    unfold getTaskStatus
    cases hq : st.jobQueue.getJobStatus id <;> cases htk : lookupA st.tasks id <;>
      simp_all
  · intro h
    simp [getAnalysisStatus, h]

/-- Witness for C10 on the empty orchestrator state. -/
theorem status_lookup_miss_returns_null_witness :
    getTaskStatus {} "t9" = none ∧ getAnalysisStatus {} "a9" = none :=
  ⟨(status_lookup_miss_returns_null {} "t9").1 (Or.inl rfl),
   (status_lookup_miss_returns_null {} "a9").2 rfl⟩

/-- Lookup after overwriting a different key is unchanged. -/
theorem lookupA_setA_ne {α : Type} (l : List (String × α)) (k id : String) (w : α)
    (h : id ≠ k) : lookupA (setA l k w) id = lookupA l id := by
  induction l with
  | nil => rfl
  | cons e rest ih =>
      obtain ⟨k0, v0⟩ := e
      by_cases hk : k0 = k
      · subst hk
        simp [setA, lookupA, Ne.symm h]
      · simp [setA, lookupA, hk]
        split_ifs <;> simp_all [lookupA]

/-- Lookup after overwriting a present key returns the new value. -/
theorem lookupA_setA_eq {α : Type} (l : List (String × α)) (k : String) (w v : α)
    (h : lookupA l k = some v) : lookupA (setA l k w) k = some w := by
  induction l with
  | nil => simp [lookupA] at h
  | cons e rest ih =>
      obtain ⟨k0, v0⟩ := e
      by_cases hk : k0 = k
      · subst hk
        simp [setA, lookupA]
      · simp [setA, lookupA, hk] at h ⊢
        exact ih h

/-- Cancelling one job reports exactly whether it was cancellable. -/
theorem cancelJob_fst (q : JobQueue) (tid : String) :
    (q.cancelJob tid).1 = cancellableIn q tid := by
  unfold JobQueue.cancelJob cancellableIn
  cases hq : lookupA q.jobs tid with
  | none => rfl
  | some j =>
      dsimp only
      split_ifs with hc <;> simp_all

/-- Cancelling one job leaves every other job's record unchanged. -/
theorem cancelJob_lookup_ne (q : JobQueue) (tid id : String) (h : id ≠ tid) :
    lookupA (q.cancelJob tid).2.jobs id = lookupA q.jobs id := by
  unfold JobQueue.cancelJob
  cases hq : lookupA q.jobs tid with
  | none => rfl
  | some j =>
      dsimp only
      split_ifs with hc
      · simpa using lookupA_setA_ne q.jobs tid id { j with state := .cancelled } h
      · rfl

/-- Cancelling a cancellable job marks it cancelled. -/
theorem cancelJob_lookup_eq (q : JobQueue) (tid : String) (j : JobRecord)
    (hq : lookupA q.jobs tid = some j)
    (hc : j.state = .pending ∨ j.state = .running) :
    lookupA (q.cancelJob tid).2.jobs tid = some { j with state := .cancelled } := by
  unfold JobQueue.cancelJob
  rw [hq]
  dsimp only
  split_ifs with h2
  · simpa using lookupA_setA_eq q.jobs tid { j with state := .cancelled } j hq
  · simp at h2
    rcases hc with hc | hc <;> simp_all

/-- Cancelling a job that is not cancellable changes nothing. -/
theorem cancelJob_noop (q : JobQueue) (tid : String)
    (h : cancellableIn q tid = false) : (q.cancelJob tid).2 = q := by
  unfold JobQueue.cancelJob
  unfold cancellableIn at h
  cases hq : lookupA q.jobs tid with
  | none => rfl
  | some j =>
      rw [hq] at h
      dsimp only at h ⊢
      split_ifs with hc
      · simp_all
      · rfl

/-- A terminal job state is never cancellable. -/
theorem isTerminal_not_cancellable (s : JobState) (h : s.isTerminal = true) :
    ¬(s = .pending ∨ s = .running) := by
  cases s <;> simp_all [JobState.isTerminal]

/-- The cancellation loop leaves jobs outside the id list unchanged. -/
theorem cancelJobsFold_lookup_notmem (ids : List String) (q : JobQueue) (id : String)
    (h : id ∉ ids) :
    lookupA (cancelJobsFold q ids).1.jobs id = lookupA q.jobs id := by
  induction ids generalizing q with
  | nil => rfl
  | cons tid rest ih =>
      have hne : id ≠ tid := by
        intro he
        exact h (by simp [he])
      have hrest : id ∉ rest := by
        intro hm
        exact h (by simp [hm])
      calc lookupA (cancelJobsFold q (tid :: rest)).1.jobs id
          = lookupA (cancelJobsFold (q.cancelJob tid).2 rest).1.jobs id := rfl
        _ = lookupA (q.cancelJob tid).2.jobs id := ih (q.cancelJob tid).2 hrest
        _ = lookupA q.jobs id := cancelJob_lookup_ne q tid id hne

/-- The cancellation loop leaves terminal jobs untouched, whether or not
their id appears in the list. -/
theorem cancelJobsFold_terminal (ids : List String) (q : JobQueue) (id : String)
    (j : JobRecord) (hq : lookupA q.jobs id = some j) (ht : j.state.isTerminal = true) :
    lookupA (cancelJobsFold q ids).1.jobs id = some j := by
  induction ids generalizing q with
  | nil => exact hq
  | cons tid rest ih =>
      by_cases hne : id = tid
      · subst hne
        have hnoop : (q.cancelJob id).2 = q := by
          apply cancelJob_noop
          unfold cancellableIn
          rw [hq]
          cases hj : j.state <;> simp_all [JobState.isTerminal]
        show lookupA (cancelJobsFold (q.cancelJob id).2 rest).1.jobs id = some j
        rw [hnoop]
        exact ih q hq
      · show lookupA (cancelJobsFold (q.cancelJob tid).2 rest).1.jobs id = some j
        apply ih
        rw [cancelJob_lookup_ne q tid id hne]
        exact hq

/-- The cancellation loop marks every listed cancellable job cancelled. -/
theorem cancelJobsFold_cancels (ids : List String) (q : JobQueue) (id : String)
    (j : JobRecord) (hmem : id ∈ ids) (hq : lookupA q.jobs id = some j)
    (hc : j.state = .pending ∨ j.state = .running) :
    lookupA (cancelJobsFold q ids).1.jobs id = some { j with state := .cancelled } := by
  induction ids generalizing q j with
  | nil => simp at hmem
  | cons tid rest ih =>
      by_cases hne : id = tid
      · subst hne
        have h2 : lookupA (q.cancelJob id).2.jobs id = some { j with state := .cancelled } :=
          cancelJob_lookup_eq q id j hq hc
        show lookupA (cancelJobsFold (q.cancelJob id).2 rest).1.jobs id
            = some { j with state := .cancelled }
        exact cancelJobsFold_terminal rest (q.cancelJob id).2 id
          { j with state := .cancelled } h2 rfl
      · have hrest : id ∈ rest := by
          cases hmem with
          | head => exact absurd rfl hne
          | tail _ hm => exact hm
        show lookupA (cancelJobsFold (q.cancelJob tid).2 rest).1.jobs id
            = some { j with state := .cancelled }
        refine ih _ _ hrest ?_ hc
        rw [cancelJob_lookup_ne q tid id hne]
        exact hq

/-- Without duplicate ids, the cancellation loop counts exactly the jobs
that were cancellable at the start of the loop. -/
theorem cancelJobsFold_count (ids : List String) (q : JobQueue) (hnd : ids.Nodup) :
    (cancelJobsFold q ids).2 = (ids.filter (fun i => cancellableIn q i)).length := by
  induction ids generalizing q with
  | nil => rfl
  | cons tid rest ih =>
      have hnotmem : tid ∉ rest := (List.nodup_cons.mp hnd).1
      have hndrest : rest.Nodup := (List.nodup_cons.mp hnd).2
      have hsame : rest.filter (fun i => cancellableIn (q.cancelJob tid).2 i)
          = rest.filter (fun i => cancellableIn q i) := by
        apply List.filter_congr
        intro i hi
        have hne : i ≠ tid := by
          intro he
          exact hnotmem (he ▸ hi)
        unfold cancellableIn
        rw [cancelJob_lookup_ne q tid i hne]
      show (if (q.cancelJob tid).1 then 1 else 0)
          + (cancelJobsFold (q.cancelJob tid).2 rest).2
        = ((tid :: rest).filter (fun i => cancellableIn q i)).length
      rw [ih (q.cancelJob tid).2 hndrest, hsame, cancelJob_fst]
      cases hcb : cancellableIn q tid <;> simp [List.filter_cons, hcb, Nat.add_comm]

/-- C6: cancelAnalysis returns true exactly when the analysis exists and
is running; when it returns false nothing changes; when it returns true
the analysis is marked cancelled, every constituent job that was pending
or running in the Job Queue is cancelled through the queue, jobs outside
the analysis and already-settled (terminal) jobs are unaffected, and the
number of jobs actually cancelled is added to the cancelled-task counter. -/
theorem cancelAnalysis_spec (st : OrchestratorState) (aid : String) :
    ((cancelAnalysis st aid).1 = true ↔
        ∃ a, lookupA st.activeAnalyses aid = some a ∧ a.status = "running")
    ∧ ((cancelAnalysis st aid).1 = false → (cancelAnalysis st aid).2 = st)
    ∧ (∀ a, lookupA st.activeAnalyses aid = some a → a.status = "running" →
        (lookupA (cancelAnalysis st aid).2.activeAnalyses aid
            = some { a with status := "cancelled" }
          ∧ (∀ id, id ∉ a.taskIds →
              lookupA (cancelAnalysis st aid).2.jobQueue.jobs id
                = lookupA st.jobQueue.jobs id)
          ∧ (∀ id j, id ∈ a.taskIds → lookupA st.jobQueue.jobs id = some j →
              (j.state = .pending ∨ j.state = .running) →
              lookupA (cancelAnalysis st aid).2.jobQueue.jobs id
                = some { j with state := .cancelled })
          ∧ (∀ id j, lookupA st.jobQueue.jobs id = some j → j.state.isTerminal = true →
              lookupA (cancelAnalysis st aid).2.jobQueue.jobs id = some j)
          ∧ (a.taskIds.Nodup →
              (cancelAnalysis st aid).2.cancelledTasks
                = st.cancelledTasks
                  + (a.taskIds.filter (fun i => cancellableIn st.jobQueue i)).length))) := by
  refine ⟨?_, ?_, ?_⟩
  · unfold cancelAnalysis
    cases ha : lookupA st.activeAnalyses aid with
    | none => simp
    | some a =>
        dsimp only
        split_ifs with hs
        · simp only [false_iff]
          rintro ⟨b, hb, hrun⟩
          cases hb
          exact hs hrun
        · simp only [true_iff]
          push_neg at hs
          exact ⟨a, rfl, hs⟩
  · unfold cancelAnalysis
    cases ha : lookupA st.activeAnalyses aid with
    | none => intro _; rfl
    | some a =>
        dsimp only
        split_ifs with hs
        · intro _; rfl
        · intro hf; cases hf
  · intro a ha hrun
    have hred : cancelAnalysis st aid
        = (true,
          { st with
            jobQueue := (cancelJobsFold st.jobQueue a.taskIds).1,
            activeAnalyses := setA st.activeAnalyses aid { a with status := "cancelled" },
            cancelledTasks :=
              st.cancelledTasks + (cancelJobsFold st.jobQueue a.taskIds).2 }) := by
      unfold cancelAnalysis
      rw [ha]
      dsimp only
      split_ifs with hs
      · exact absurd hrun hs
      · rfl
    refine ⟨?_, ?_, ?_, ?_, ?_⟩
    · rw [hred]
      exact lookupA_setA_eq st.activeAnalyses aid { a with status := "cancelled" } a ha
    · intro id hid
      rw [hred]
      exact cancelJobsFold_lookup_notmem a.taskIds st.jobQueue id hid
    · intro id j hid hj hc
      rw [hred]
      exact cancelJobsFold_cancels a.taskIds st.jobQueue id j hid hj hc
    · intro id j hj ht
      rw [hred]
      exact cancelJobsFold_terminal a.taskIds st.jobQueue id j hj ht
    · intro hnd
      rw [hred]
      simp [cancelJobsFold_count a.taskIds st.jobQueue hnd]

/-- Witness for C6 on a concrete state: one running analysis with two
jobs, one pending and one completed; the pending job is cancelled, the
completed one is untouched, and the counter grows by one. -/
theorem cancelAnalysis_spec_witness :
    ((cancelAnalysis
        { jobQueue := ⟨[("j1", { state := .pending, createdAt := 1 }),
            ("j2", { state := .completed, createdAt := 1 })]⟩,
          tasks := [],
          activeAnalyses := [("a1",
            { taskIds := ["j1", "j2"], taskTypes := ["dom_analysis", "vision_analysis"],
              startTime := 1, status := "running" })],
          cancelledTasks := 0 } "a1").1 = true)
    ∧ (cancelAnalysis
        { jobQueue := ⟨[("j1", { state := .pending, createdAt := 1 }),
            ("j2", { state := .completed, createdAt := 1 })]⟩,
          tasks := [],
          activeAnalyses := [("a1",
            { taskIds := ["j1", "j2"], taskTypes := ["dom_analysis", "vision_analysis"],
              startTime := 1, status := "running" })],
          cancelledTasks := 0 } "a1").2.cancelledTasks = 0 + 1 := by
  constructor
  · exact (cancelAnalysis_spec
      { jobQueue := ⟨[("j1", { state := .pending, createdAt := 1 }),
          ("j2", { state := .completed, createdAt := 1 })]⟩,
        tasks := [],
        activeAnalyses := [("a1",
          { taskIds := ["j1", "j2"], taskTypes := ["dom_analysis", "vision_analysis"],
            startTime := 1, status := "running" })],
        cancelledTasks := 0 } "a1").1.mpr
      ⟨{ taskIds := ["j1", "j2"], taskTypes := ["dom_analysis", "vision_analysis"],
          startTime := 1, status := "running" }, rfl, rfl⟩
  · have h := ((cancelAnalysis_spec
      { jobQueue := ⟨[("j1", { state := .pending, createdAt := 1 }),
          ("j2", { state := .completed, createdAt := 1 })]⟩,
        tasks := [],
        activeAnalyses := [("a1",
          { taskIds := ["j1", "j2"], taskTypes := ["dom_analysis", "vision_analysis"],
            startTime := 1, status := "running" })],
        cancelledTasks := 0 } "a1").2.2
      { taskIds := ["j1", "j2"], taskTypes := ["dom_analysis", "vision_analysis"],
        startTime := 1, status := "running" } rfl rfl).2.2.2.2 (by decide)
    rw [h]
    rfl

/-- Lookup of a key absent from the key list yields none. -/
theorem lookupA_none_of_not_mem {α : Type} (l : List (String × α)) (k : String)
    (h : k ∉ l.map Prod.fst) : lookupA l k = none := by
  induction l with
  | nil => rfl
  | cons e rest ih =>
      obtain ⟨k0, v0⟩ := e
      simp only [List.map_cons, List.mem_cons] at h
      push_neg at h
      simp [lookupA, Ne.symm h.1]
      exact ih h.2

/-- Lookup of a key absent from the key list yields none after any filter. -/
theorem lookupA_filter_none_of_not_mem {α : Type} (p : String × α → Bool)
    (l : List (String × α)) (k : String) (h : k ∉ l.map Prod.fst) :
    lookupA (l.filter p) k = none := by
  induction l with
  | nil => rfl
  | cons e rest ih =>
      obtain ⟨k0, v0⟩ := e
      simp only [List.map_cons, List.mem_cons] at h
      push_neg at h
      rw [List.filter_cons]
      split_ifs with hp
      · simp [lookupA, Ne.symm h.1]
        exact ih h.2
      · exact ih h.2

/-- With distinct keys, lookup in a filtered association list keeps a
present entry exactly when the filter keeps it. -/
theorem lookupA_filter {α : Type} (p : String × α → Bool) (l : List (String × α))
    (k : String) (v : α) (hnd : (l.map Prod.fst).Nodup)
    (h : lookupA l k = some v) :
    lookupA (l.filter p) k = if p (k, v) then some v else none := by
  induction l with
  | nil => simp [lookupA] at h
  | cons e rest ih =>
      obtain ⟨k0, v0⟩ := e
      simp only [List.map_cons, List.nodup_cons] at hnd
      by_cases hk : k0 = k
      · subst hk
        simp only [lookupA, if_pos rfl] at h
        cases h
        rw [List.filter_cons]
        split_ifs with hp
        · simp [lookupA]
        · exact lookupA_filter_none_of_not_mem p rest k0 hnd.1
      · simp only [lookupA, if_neg hk] at h
        rw [List.filter_cons]
        cases hp : p (k0, v0)
        · simp only [hp, Bool.false_eq_true, if_false]
          exact ih hnd.2 h
        · simp only [hp, if_true]
          simp only [lookupA, if_neg hk]
          exact ih hnd.2 h

/-- Counterexample to C5 as stated: with maxAgeMs equal to zero, a task
record whose job is still running in the Job Queue is removed from the
orchestrator's tracking (the task sweep checks only age), while a terminal
analysis whose start time equals the call instant is retained (the age
comparison is strict). -/
theorem cleanup_zero_cex :
    lookupA (cleanup
        { jobQueue := ⟨[("t1", { state := .running, createdAt := 5 })]⟩,
          tasks := [("t1", { type := "dom_analysis", status := "pending", createdAt := 5 })],
          activeAnalyses := [("a1",
            { taskIds := ["t1"], taskTypes := ["dom_analysis"],
              startTime := 1000, status := "completed" })],
          cancelledTasks := 0 } 1000 0).1.tasks "t1" = none
    ∧ lookupA
        ({ jobQueue := ⟨[("t1", { state := .running, createdAt := 5 })]⟩,
           tasks := [("t1", { type := "dom_analysis", status := "pending", createdAt := 5 })],
           activeAnalyses := [("a1",
             { taskIds := ["t1"], taskTypes := ["dom_analysis"],
               startTime := 1000, status := "completed" })],
           cancelledTasks := 0 } : OrchestratorState).jobQueue.jobs "t1"
        = some { state := .running, createdAt := 5 }
    ∧ lookupA (cleanup
        { jobQueue := ⟨[("t1", { state := .running, createdAt := 5 })]⟩,
          tasks := [("t1", { type := "dom_analysis", status := "pending", createdAt := 5 })],
          activeAnalyses := [("a1",
            { taskIds := ["t1"], taskTypes := ["dom_analysis"],
              startTime := 1000, status := "completed" })],
          cancelledTasks := 0 } 1000 0).1.activeAnalyses "a1"
        = some { taskIds := ["t1"], taskTypes := ["dom_analysis"],
                 startTime := 1000, status := "completed" } := by
  refine ⟨?_, ?_, ?_⟩ <;> rfl

/-- C5 (amended): cleanup with maxAgeMs equal to zero removes exactly the
terminal analyses whose non-zero start time is strictly earlier than the
call instant and never removes a running analysis; orchestrator task
records are removed purely by age (non-zero creation time strictly earlier
than the call instant) regardless of the underlying job's state; and the
Job Queue sweep (modelled from the spec) removes only terminal jobs,
never a running or pending one. -/
theorem cleanup_zero_spec (st : OrchestratorState) (now : ℤ)
    (hA : (st.activeAnalyses.map Prod.fst).Nodup)
    (hT : (st.tasks.map Prod.fst).Nodup)
    (hJ : (st.jobQueue.jobs.map Prod.fst).Nodup) :
    (∀ aid a, lookupA st.activeAnalyses aid = some a →
        lookupA (cleanup st now 0).1.activeAnalyses aid
          = if a.status ≠ "running" ∧ a.startTime ≠ 0 ∧ a.startTime < now
            then none else some a)
    ∧ (∀ aid a, lookupA st.activeAnalyses aid = some a → a.status = "running" →
        lookupA (cleanup st now 0).1.activeAnalyses aid = some a)
    ∧ (∀ tid t, lookupA st.tasks tid = some t →
        lookupA (cleanup st now 0).1.tasks tid
          = if t.createdAt ≠ 0 ∧ t.createdAt < now then none else some t)
    ∧ (∀ jid j, lookupA st.jobQueue.jobs jid = some j →
        lookupA (cleanup st now 0).1.jobQueue.jobs jid
          = if j.state.isTerminal = true ∧ j.createdAt < now then none else some j)
    ∧ (∀ jid j, lookupA st.jobQueue.jobs jid = some j → j.state.isTerminal = false →
        lookupA (cleanup st now 0).1.jobQueue.jobs jid = some j) := by
  have hboolA : ∀ (aid : String) (a : AnalysisRecord),
      analysisExpired now 0 (aid, a)
        = decide (a.status ≠ "running" ∧ a.startTime ≠ 0 ∧ a.startTime < now) := by
    intro aid a
    unfold analysisExpired
    by_cases h1 : a.status = "running" <;>
      by_cases h2 : a.startTime = 0 <;>
        by_cases h3 : a.startTime < now <;>
          simp [h1, h2, h3, bne_iff_ne]
  have hboolT : ∀ (tid : String) (t : TaskRecord),
      taskExpired now 0 (tid, t)
        = decide (t.createdAt ≠ 0 ∧ t.createdAt < now) := by
    intro tid t
    unfold taskExpired
    by_cases h2 : t.createdAt = 0 <;>
      by_cases h3 : t.createdAt < now <;>
        simp [h2, h3, bne_iff_ne]
  have hboolJ : ∀ (jid : String) (j : JobRecord),
      jobExpired now 0 (jid, j)
        = decide (j.state.isTerminal = true ∧ j.createdAt < now) := by
    intro jid j
    unfold jobExpired
    by_cases h1 : j.state.isTerminal = true <;>
      by_cases h3 : j.createdAt < now <;>
        simp [h1, h3]
  refine ⟨?_, ?_, ?_, ?_, ?_⟩
  · intro aid a ha
    have hfa := lookupA_filter (fun e => !analysisExpired now 0 e)
      st.activeAnalyses aid a hA ha
    have hred : (cleanup st now 0).1.activeAnalyses
        = st.activeAnalyses.filter (fun e => !analysisExpired now 0 e) := rfl
    rw [hred, hfa]
    dsimp only
    rw [hboolA]
    by_cases hc : a.status ≠ "running" ∧ a.startTime ≠ 0 ∧ a.startTime < now <;>
      simp [hc]
  · intro aid a ha hrun
    have hfa := lookupA_filter (fun e => !analysisExpired now 0 e)
      st.activeAnalyses aid a hA ha
    have hred : (cleanup st now 0).1.activeAnalyses
        = st.activeAnalyses.filter (fun e => !analysisExpired now 0 e) := rfl
    rw [hred, hfa]
    dsimp only
    rw [hboolA]
    simp [hrun]
  · intro tid t ht
    have hft := lookupA_filter (fun e => !taskExpired now 0 e) st.tasks tid t hT ht
    have hred : (cleanup st now 0).1.tasks
        = st.tasks.filter (fun e => !taskExpired now 0 e) := rfl
    rw [hred, hft]
    dsimp only
    rw [hboolT]
    by_cases hc : t.createdAt ≠ 0 ∧ t.createdAt < now <;> simp [hc]
  · intro jid j hj
    have hfj := lookupA_filter (fun e => !jobExpired now 0 e) st.jobQueue.jobs jid j hJ hj
    have hred : (cleanup st now 0).1.jobQueue.jobs
        = st.jobQueue.jobs.filter (fun e => !jobExpired now 0 e) := rfl
    rw [hred, hfj]
    dsimp only
    rw [hboolJ]
    by_cases hc : j.state.isTerminal = true ∧ j.createdAt < now <;> simp [hc]
  · intro jid j hj hrun
    have hfj := lookupA_filter (fun e => !jobExpired now 0 e) st.jobQueue.jobs jid j hJ hj
    have hred : (cleanup st now 0).1.jobQueue.jobs
        = st.jobQueue.jobs.filter (fun e => !jobExpired now 0 e) := rfl
    rw [hred, hfj]
    dsimp only
    rw [hboolJ]
    simp [hrun]

/-- Witness for the amended C5 on a concrete state: an old completed
analysis is swept, a running one is kept, an old task record of a running
job is swept, and the running job survives in the queue. -/
theorem cleanup_zero_spec_witness :
    lookupA (cleanup
        { jobQueue := ⟨[("t1", { state := .running, createdAt := 5 })]⟩,
          tasks := [("t1", { type := "dom_analysis", status := "pending", createdAt := 5 })],
          activeAnalyses := [("a1",
            { taskIds := ["t1"], taskTypes := ["dom_analysis"],
              startTime := 7, status := "completed" }),
            ("a2",
            { taskIds := [], taskTypes := [],
              startTime := 7, status := "running" })],
          cancelledTasks := 0 } 1000 0).1.activeAnalyses "a1" = none
    ∧ lookupA (cleanup
        { jobQueue := ⟨[("t1", { state := .running, createdAt := 5 })]⟩,
          tasks := [("t1", { type := "dom_analysis", status := "pending", createdAt := 5 })],
          activeAnalyses := [("a1",
            { taskIds := ["t1"], taskTypes := ["dom_analysis"],
              startTime := 7, status := "completed" }),
            ("a2",
            { taskIds := [], taskTypes := [],
              startTime := 7, status := "running" })],
          cancelledTasks := 0 } 1000 0).1.activeAnalyses "a2"
        = some { taskIds := [], taskTypes := [], startTime := 7, status := "running" }
    ∧ lookupA (cleanup
        { jobQueue := ⟨[("t1", { state := .running, createdAt := 5 })]⟩,
          tasks := [("t1", { type := "dom_analysis", status := "pending", createdAt := 5 })],
          activeAnalyses := [("a1",
            { taskIds := ["t1"], taskTypes := ["dom_analysis"],
              startTime := 7, status := "completed" }),
            ("a2",
            { taskIds := [], taskTypes := [],
              startTime := 7, status := "running" })],
          cancelledTasks := 0 } 1000 0).1.jobQueue.jobs "t1"
        = some { state := .running, createdAt := 5 } := by
  have h := cleanup_zero_spec
    { jobQueue := ⟨[("t1", { state := .running, createdAt := 5 })]⟩,
      tasks := [("t1", { type := "dom_analysis", status := "pending", createdAt := 5 })],
      activeAnalyses := [("a1",
        { taskIds := ["t1"], taskTypes := ["dom_analysis"],
          startTime := 7, status := "completed" }),
        ("a2",
        { taskIds := [], taskTypes := [],
          startTime := 7, status := "running" })],
      cancelledTasks := 0 } 1000 (by decide) (by decide) (by decide)
  refine ⟨?_, ?_, ?_⟩
  · rw [h.1 "a1"
      { taskIds := ["t1"], taskTypes := ["dom_analysis"],
        startTime := 7, status := "completed" } rfl]
    decide
  · exact h.2.1 "a2"
      { taskIds := [], taskTypes := [], startTime := 7, status := "running" } rfl rfl
  · exact h.2.2.2.2 "t1" { state := .running, createdAt := 5 } rfl rfl

/-- A successful candidate result carrying a present confidence and an
action from the fixed enumeration. -/
def wellFormedResult (r : AnalysisResult) : Prop :=
  r.confidence.isSome = true ∧ r.action ∈ actionEnum

/-- Counterexample to C8 as stated: executeTransitionPrediction copies the
caller-supplied proposed action into its successful result verbatim, so an
action outside the fixed enumeration escapes into a successful candidate
result. -/
theorem executor_action_outside_enum_cex :
    (executeTransitionPrediction {}
        { proposedAction := some { action := some "explode" } } {}).toOption.map
        AnalysisResult.action
      = some "explode"
    ∧ "explode" ∉ actionEnum := by
  constructor
  · rfl
  · decide

/-- C8 (amended): every successful result of the orchestrator's task
executors carries a present confidence, and its action is drawn from the
fixed enumeration, with the single exception of transition prediction,
whose action is the caller-supplied proposed action passed through with a
JS-falsy default of wait — for every other executor the membership is
unconditional. -/
theorem executor_results_wellformed (cfg : OrchestratorConfig) :
    (∀ dom pm, wellFormedResult (executeDomAnalysis dom pm))
    ∧ wellFormedResult executeVisionAnalysis
    ∧ (∀ data seg r, executeVisualSegmentation cfg data seg = .ok r → wellFormedResult r)
    ∧ (∀ els cls r, executeElementClassification cfg els cls = .ok r → wellFormedResult r)
    ∧ (∀ data m r, executeVisualMapping cfg data m = .ok r → wellFormedResult r)
    ∧ (∀ ch r, executeStateTracking cfg ch = .ok r → wellFormedResult r)
    ∧ (∀ an r, executeAnimationDetection cfg an = .ok r → wellFormedResult r)
    ∧ (∀ data pred r, executeTransitionPrediction cfg data pred = .ok r →
        r.confidence.isSome = true
          ∧ r.action = jsOrStr (data.proposedAction.bind (fun p => p.action)) "wait")
    ∧ wellFormedResult executePatternMatching
    ∧ wellFormedResult executeLearningInference := by
  refine ⟨?_, ⟨rfl, by decide⟩, ?_, ?_, ?_, ?_, ?_, ?_, ⟨rfl, by decide⟩, ⟨rfl, by decide⟩⟩
  · intro dom pm
    unfold executeDomAnalysis wellFormedResult
    dsimp only
    cases pm <;> dsimp only <;> split_ifs <;> exact ⟨rfl, by dsimp only; decide⟩
  · intro data seg r h
    unfold executeVisualSegmentation at h
    split_ifs at h
    injection h with h
    subst h
    unfold wellFormedResult segmentationToAction
    dsimp only
    split_ifs <;> exact ⟨rfl, by dsimp only; decide⟩
  · intro els cls r h
    unfold executeElementClassification at h
    split_ifs at h
    dsimp only at h
    cases hi : cls.filter
        (fun c => decide (c.interaction = "clickable") || decide (c.interaction = "editable")) with
    | nil =>
        rw [hi] at h
        injection h with h
        subst h
        exact ⟨rfl, by dsimp only; decide⟩
    | cons c0 cs =>
        rw [hi] at h
        dsimp only at h
        injection h with h
        subst h
        refine ⟨rfl, ?_⟩
        dsimp only
        split_ifs <;> decide
  · intro data m r h
    unfold executeVisualMapping at h
    split_ifs at h
    cases hm : m.mappings.head? with
    | none =>
        rw [hm] at h
        injection h with h
        subst h
        exact ⟨rfl, by dsimp only; decide⟩
    | some best =>
        rw [hm] at h
        dsimp only at h
        split_ifs at h <;> (injection h with h; subst h; exact ⟨rfl, by dsimp only; decide⟩)
  · intro ch r h
    unfold executeStateTracking at h
    split_ifs at h
    cases ch with
    | none =>
        injection h with h
        subst h
        exact ⟨rfl, by dsimp only; decide⟩
    | some c =>
        dsimp only at h
        split_ifs at h <;> (injection h with h; subst h; exact ⟨rfl, by dsimp only; decide⟩)
  · intro an r h
    unfold executeAnimationDetection at h
    split_ifs at h <;> (injection h with h; subst h; exact ⟨rfl, by dsimp only; decide⟩)
  · intro data pred r h
    unfold executeTransitionPrediction at h
    split_ifs at h
    injection h with h
    subst h
    exact ⟨rfl, rfl⟩

/-- Witness for the amended C8: a concrete DOM-analysis result and a
concrete state-tracking success. -/
theorem executor_results_wellformed_witness :
    wellFormedResult (executeDomAnalysis "<button>[COOKIE-BANNER]Accept</button>" (some "3"))
    ∧ wellFormedResult
        { source := some "heuristic", action := "wait", confidence := some (7 / 10),
          reason := "First state captured, no changes to analyze" } :=
  ⟨(executor_results_wellformed {}).1 "<button>[COOKIE-BANNER]Accept</button>" (some "3"),
   (executor_results_wellformed {}).2.2.2.2.2.1 none
     { source := some "heuristic", action := "wait", confidence := some (7 / 10),
       reason := "First state captured, no changes to analyze" } rfl⟩

/-- The preference order never prefers a group to itself. -/
theorem betterGroup_irrefl (a : CandidateGroup) : betterGroup a a = false := by
  simp [betterGroup]

/-- The preference order is asymmetric. -/
theorem betterGroup_asymm {a b : CandidateGroup} (h : betterGroup a b = true) :
    betterGroup b a = false := by
  simp only [betterGroup, decide_eq_true_eq] at h
  simp only [betterGroup, decide_eq_false_iff_not]
  exact lt_asymm h

/-- Non-preference is transitive. -/
theorem betterGroup_neg_trans {a b c : CandidateGroup}
    (hab : betterGroup a b = false) (hbc : betterGroup b c = false) :
    betterGroup a c = false := by
  simp only [betterGroup, decide_eq_false_iff_not, not_lt] at hab hbc ⊢
  exact le_trans hab hbc

/-- The selected group is one of the groups, and no group is strictly
preferred to it. -/
theorem pickBestGroup_spec (gs : List CandidateGroup) :
    ∀ g : CandidateGroup,
      pickBestGroup g gs ∈ g :: gs
        ∧ ∀ h2 ∈ g :: gs, betterGroup h2 (pickBestGroup g gs) = false := by
  induction gs with
  | nil =>
      intro g
      refine ⟨by simp [pickBestGroup], ?_⟩
      intro h2 hm
      simp only [List.mem_singleton] at hm
      subst hm
      simpa [pickBestGroup] using betterGroup_irrefl h2
  | cons x xs ih =>
      intro g
      have hstep : pickBestGroup g (x :: xs)
          = pickBestGroup (if betterGroup x g then x else g) xs := rfl
      obtain ⟨ihmem, ihbest⟩ := ih (if betterGroup x g then x else g)
      rw [hstep]
      cases hb : betterGroup x g with
      | true =>
          simp only [hb, eq_self_iff_true, if_true] at ihmem ihbest
          constructor
          · rcases List.mem_cons.mp ihmem with hm | hm
            · simp [hm]
            · simp [List.mem_cons, hm]
          · intro h2 hm
            rcases List.mem_cons.mp hm with hm2 | hm2
            · subst hm2
              exact betterGroup_neg_trans (betterGroup_asymm hb) (ihbest x (by simp))
            · exact ihbest h2 hm2
      | false =>
          simp only [hb, Bool.false_eq_true, if_false] at ihmem ihbest
          constructor
          · rcases List.mem_cons.mp ihmem with hm | hm
            · simp [hm]
            · simp [List.mem_cons, hm]
          · intro h2 hm
            rcases List.mem_cons.mp hm with hm2 | hm2
            · subst hm2
              exact ihbest h2 (by simp)
            · rcases List.mem_cons.mp hm2 with hm3 | hm3
              · subst hm3
                exact betterGroup_neg_trans hb (ihbest g (by simp))
              · exact ihbest h2 (by simp [hm3])

/-- Inserting a candidate that agrees with no existing group appends a new
singleton group. -/
theorem addCandidate_of_new_key (gs : List CandidateGroup) (c : AnalysisResult)
    (h : ∀ g ∈ gs, candMatches g.first c = false) :
    addCandidate gs c = gs ++ [⟨c, []⟩] := by
  induction gs with
  | nil => rfl
  | cons g rest ih =>
      unfold addCandidate
      rw [h g (by simp)]
      rw [ih (fun g2 hm => h g2 (by simp [hm]))]
      simp

/-- Folding pairwise non-agreeing candidates produces only singleton
groups, in order, after any accumulator whose groups agree with none of
them. -/
theorem groupCandidates_distinct_aux (l : List AnalysisResult) :
    ∀ acc : List CandidateGroup,
      (∀ g ∈ acc, ∀ c ∈ l, candMatches g.first c = false) →
      l.Pairwise (fun x y => candMatches x y = false) →
      l.foldl addCandidate acc = acc ++ l.map (fun c => ⟨c, []⟩) := by
  induction l with
  | nil => intro acc _ _; simp
  | cons c rest ih =>
      intro acc hacc hpw
      have hpw2 := (List.pairwise_cons.mp hpw).2
      have hhead := (List.pairwise_cons.mp hpw).1
      have hstep : addCandidate acc c = acc ++ [⟨c, []⟩] :=
        addCandidate_of_new_key acc c (fun g hm => hacc g hm c (by simp))
      have hsub : ∀ g ∈ acc ++ [(⟨c, []⟩ : CandidateGroup)], ∀ d ∈ rest,
          candMatches g.first d = false := by
        intro g hm d hd
        rcases List.mem_append.mp hm with hm2 | hm2
        · exact hacc g hm2 d (by simp [hd])
        · simp only [List.mem_singleton] at hm2
          subst hm2
          exact hhead d hd
      have hrec := ih (acc ++ [⟨c, []⟩]) hsub hpw2
      show List.foldl addCandidate (addCandidate acc c) rest
          = acc ++ (c :: rest).map (fun x => ⟨x, []⟩)
      rw [hstep, hrec]
      simp

/-- Grouping pairwise non-agreeing candidates yields the singleton groups
in order. -/
theorem groupCandidates_distinct (l : List AnalysisResult)
    (hpw : l.Pairwise (fun x y => candMatches x y = false)) :
    groupCandidates l = l.map (fun c => ⟨c, []⟩) := by
  have h := groupCandidates_distinct_aux l [] (by simp) hpw
  simpa [groupCandidates] using h

/-- The combined confidence of a singleton group is its candidate's
confidence, once that confidence is at most one. -/
theorem single_combined (c : AnalysisResult) (h : confOf c ≤ 1) :
    CandidateGroup.combined ⟨c, []⟩ = confOf c := by
  unfold CandidateGroup.combined CandidateGroup.maxConf CandidateGroup.size
    CandidateGroup.members agreementBonus
  norm_num
  exact h

/-- A group of exactly two agreeing candidates has the maximum of their
confidences as its maximal confidence. -/
theorem pair_maxConf (a b : AnalysisResult) :
    CandidateGroup.maxConf ⟨a, [b]⟩ = max (confOf a) (confOf b) := rfl

/-- The preference key of a singleton group, once its confidence is at
most one. -/
theorem single_groupKey (c : AnalysisResult) (h : confOf c ≤ 1) :
    groupKey ⟨c, []⟩
      = toLex (confOf c,
          toLex ((1 : ℚ),
            toLex (confOf c, -((sourcePriority c.source : ℕ) : ℚ)))) := by
  unfold groupKey
  rw [single_combined c h]
  norm_num [CandidateGroup.size, CandidateGroup.members, CandidateGroup.maxConf,
    CandidateGroup.bestPriority]

/-- Non-preference between singleton groups, with confidences at most one,
means lower-or-equal confidence, and with equal confidence a
lower-or-equal priority rank for the preferred side. -/
theorem single_not_better (d w : AnalysisResult) (hd : confOf d ≤ 1) (hw : confOf w ≤ 1)
    (h : betterGroup ⟨d, []⟩ ⟨w, []⟩ = false) :
    confOf d ≤ confOf w
      ∧ (confOf d = confOf w →
          sourcePriority w.source ≤ sourcePriority d.source) := by
  simp only [betterGroup, decide_eq_false_iff_not, not_lt] at h
  rw [single_groupKey d hd, single_groupKey w hw] at h
  rw [Prod.Lex.le_iff] at h
  rcases h with h | ⟨heq, h⟩
  · dsimp at h
    constructor
    · exact le_of_lt h
    · intro he
      rw [he] at h
      exact absurd h (lt_irrefl _)
  · dsimp at heq
    rw [Prod.Lex.le_iff] at h
    rcases h with h | ⟨_, h⟩
    · dsimp at h
      exact absurd h (lt_irrefl _)
    · rw [Prod.Lex.le_iff] at h
      rcases h with h | ⟨_, h⟩
      · dsimp at h
        rw [heq] at h
        exact absurd h (lt_irrefl _)
      · dsimp at h
        refine ⟨le_of_eq heq, fun _ => ?_⟩
        have h2 : ((sourcePriority w.source : ℕ) : ℚ)
            ≤ ((sourcePriority d.source : ℕ) : ℚ) := by linarith
        exact_mod_cast h2

/-- The combined confidence of a two-candidate agreement group. -/
theorem pair_combined (a b : AnalysisResult) :
    CandidateGroup.combined ⟨a, [b]⟩
      = min 1 (max (confOf a) (confOf b) + 1 / 10) := by
  unfold CandidateGroup.combined agreementBonus
  rw [pair_maxConf]
  norm_num [CandidateGroup.size, CandidateGroup.members]

/-- C9: reconciling two candidates proposing the same (action, selector)
yields a combined confidence at least the maximum of the individual
confidences and capped at one; and reconciling candidates among which no
two agree — under the grouping's matching, which includes the
null-selector wildcard for targetless actions — returns the single
highest-confidence candidate, ties broken by the number of contributing
sources (vacuous among singleton groups), then the highest single
confidence, then the fixed source-priority order. -/
theorem reconcile_agreement_and_selection :
    (∀ (a b : AnalysisResult) (ctx : Option String), rKey a = rKey b →
        confOf a ≤ 1 → confOf b ≤ 1 →
        ∃ r, reconcile [a, b] ctx = .ok r
          ∧ ∃ c, r.confidence = some c
              ∧ max (confOf a) (confOf b) ≤ c ∧ c ≤ 1)
    ∧ (∀ (ctx : Option String) (c1 c2 : AnalysisResult)
          (rest : List AnalysisResult),
        (c1 :: c2 :: rest).Pairwise (fun x y => candMatches x y = false) →
        (∀ d ∈ c1 :: c2 :: rest, confOf d ≤ 1) →
        ∃ w ∈ c1 :: c2 :: rest, ∃ r,
          reconcile (c1 :: c2 :: rest) ctx = .ok r
            ∧ r.action = w.action ∧ r.selector = w.selector
            ∧ r.confidence = some (confOf w)
            ∧ (∀ d ∈ c1 :: c2 :: rest, confOf d ≤ confOf w)
            ∧ (∀ d ∈ c1 :: c2 :: rest, confOf d = confOf w →
                sourcePriority w.source ≤ sourcePriority d.source)) := by
  constructor
  · intro a b ctx hkey ha hb
    have hm : candMatches a b = true := by
      have h1 : a.action = b.action := congrArg Prod.fst hkey
      have h2 : a.selector = b.selector := congrArg Prod.snd hkey
      simp [candMatches, h1, h2]
    have hg : groupCandidates [a, b] = [⟨a, [b]⟩] := by
      simp [groupCandidates, addCandidate, hm]
    have hrec : reconcile [a, b] ctx
        = .ok { source := (⟨a, [b]⟩ : CandidateGroup).first.source,
                action := (⟨a, [b]⟩ : CandidateGroup).first.action,
                selector := (⟨a, [b]⟩ : CandidateGroup).first.selector,
                confidence := some (CandidateGroup.combined ⟨a, [b]⟩),
                reason := "Agreement of "
                  ++ toString (CandidateGroup.size ⟨a, [b]⟩) ++ " candidate(s)",
                sources := some ((CandidateGroup.members ⟨a, [b]⟩).map
                  (fun r2 => jsOrStr r2.source "unknown")) } := by
      unfold reconcile
      dsimp only
      rw [hg]
      rfl
    refine ⟨_, hrec, CandidateGroup.combined ⟨a, [b]⟩, rfl, ?_, ?_⟩
    · rw [pair_combined]
      refine le_min (max_le ha hb) ?_
      have := le_max_left (confOf a) (confOf b)
      linarith
    · rw [pair_combined]
      exact min_le_left _ _
  · intro ctx c1 c2 rest hpw hconf
    have hg : groupCandidates (c1 :: c2 :: rest)
        = (c1 :: c2 :: rest).map (fun c => ⟨c, []⟩) :=
      groupCandidates_distinct _ hpw
    obtain ⟨hwmem, hwbest⟩ :=
      pickBestGroup_spec ((c2 :: rest).map (fun c => ⟨c, []⟩)) ⟨c1, []⟩
    have hwl : pickBestGroup ⟨c1, []⟩ ((c2 :: rest).map (fun c => ⟨c, []⟩))
        ∈ (c1 :: c2 :: rest).map (fun c => (⟨c, []⟩ : CandidateGroup)) := hwmem
    obtain ⟨wc, hwcl, hwc⟩ := List.mem_map.mp hwl
    have hrec : reconcile (c1 :: c2 :: rest) ctx
        = .ok { source := (pickBestGroup ⟨c1, []⟩
                  ((c2 :: rest).map (fun c => ⟨c, []⟩))).first.source,
                action := (pickBestGroup ⟨c1, []⟩
                  ((c2 :: rest).map (fun c => ⟨c, []⟩))).first.action,
                selector := (pickBestGroup ⟨c1, []⟩
                  ((c2 :: rest).map (fun c => ⟨c, []⟩))).first.selector,
                confidence := some (CandidateGroup.combined (pickBestGroup ⟨c1, []⟩
                  ((c2 :: rest).map (fun c => ⟨c, []⟩)))),
                reason := "Agreement of "
                  ++ toString (CandidateGroup.size (pickBestGroup ⟨c1, []⟩
                    ((c2 :: rest).map (fun c => ⟨c, []⟩)))) ++ " candidate(s)",
                sources := some ((CandidateGroup.members (pickBestGroup ⟨c1, []⟩
                  ((c2 :: rest).map (fun c => ⟨c, []⟩)))).map
                    (fun r2 => jsOrStr r2.source "unknown")) } := by
      unfold reconcile
      dsimp only
      rw [hg]
      rfl
    rw [← hwc] at hrec
    have hwc1 : confOf wc ≤ 1 := hconf wc hwcl
    refine ⟨wc, hwcl, _, hrec, rfl, rfl, ?_, ?_, ?_⟩
    · dsimp only
      rw [single_combined wc hwc1]
    · intro d hd
      have hdmem : (⟨d, []⟩ : CandidateGroup)
          ∈ (⟨c1, []⟩ : CandidateGroup) :: (c2 :: rest).map (fun c => ⟨c, []⟩) := by
        rcases List.mem_cons.mp hd with hd2 | hd2
        · subst hd2; simp
        · exact List.mem_cons_of_mem _ (List.mem_map_of_mem _ hd2)
      have hnb := hwbest ⟨d, []⟩ hdmem
      rw [← hwc] at hnb
      exact (single_not_better d wc (hconf d hd) hwc1 hnb).1
    · intro d hd heq
      have hdmem : (⟨d, []⟩ : CandidateGroup)
          ∈ (⟨c1, []⟩ : CandidateGroup) :: (c2 :: rest).map (fun c => ⟨c, []⟩) := by
        rcases List.mem_cons.mp hd with hd2 | hd2
        · subst hd2; simp
        · exact List.mem_cons_of_mem _ (List.mem_map_of_mem _ hd2)
      have hnb := hwbest ⟨d, []⟩ hdmem
      rw [← hwc] at hnb
      exact (single_not_better d wc (hconf d hd) hwc1 hnb).2 heq

/-- A structural candidate used by the reconciliation witness. -/
def witnessCandA : AnalysisResult :=
  { source := some "dom", action := "click", selector := some "#s1",
    confidence := some (3 / 5) }

/-- A perceptual candidate agreeing with witnessCandA. -/
def witnessCandB : AnalysisResult :=
  { source := some "vision", action := "click", selector := some "#s1",
    confidence := some (7 / 10) }

/-- A perceptual candidate disagreeing with witnessCandA. -/
def witnessCandC : AnalysisResult :=
  { source := some "vision", action := "scroll", selector := none,
    confidence := some (9 / 10) }

/-- Witness for C9: a concrete agreeing pair and a concrete disagreeing
pair. -/
theorem reconcile_agreement_and_selection_witness :
    (∃ r, reconcile [witnessCandA, witnessCandB] none = .ok r
      ∧ ∃ c, r.confidence = some c
          ∧ max (confOf witnessCandA) (confOf witnessCandB) ≤ c ∧ c ≤ 1)
    ∧ (∃ w ∈ [witnessCandA, witnessCandC], ∃ r,
        reconcile [witnessCandA, witnessCandC] none = .ok r
          ∧ r.action = w.action ∧ r.selector = w.selector
          ∧ r.confidence = some (confOf w)
          ∧ (∀ d ∈ [witnessCandA, witnessCandC], confOf d ≤ confOf w)
          ∧ (∀ d ∈ [witnessCandA, witnessCandC], confOf d = confOf w →
              sourcePriority w.source ≤ sourcePriority d.source)) := by
  constructor
  · exact reconcile_agreement_and_selection.1 witnessCandA witnessCandB none rfl
      (by norm_num [confOf, witnessCandA]) (by norm_num [confOf, witnessCandB])
  · exact reconcile_agreement_and_selection.2 none witnessCandA witnessCandC []
      (by simp [candMatches, witnessCandA, witnessCandC])
      (by
        intro d hd
        rcases List.mem_cons.mp hd with rfl | hd2
        · norm_num [confOf, witnessCandA]
        · rcases List.mem_cons.mp hd2 with rfl | hd3
          · norm_num [confOf, witnessCandC]
          · simp at hd3)

end BrowserAgent
